import Mathlib

/-!
Verification of `bigFileAmountCompare.py`: the rsync-output parser/aggregator
(`analyze_rsync_output`), the report renderer (`format_report`), and the
control flow of `main` around the temporary output file.

The embedding models each input as a list of raw line strings.  Python string
operations (`strip`, `rstrip('/')`, `startswith`, substring containment) and
`pathlib.Path(...).parts` (POSIX flavour) are translated explicitly below.
-/

/-- Whitespace characters stripped by Python `str.strip()`. -/
def isPySpace (c : Char) : Bool :=
  c == ' ' || c == '\t' || c == '\n' || c == '\r' || c == '\x0b' || c == '\x0c'

/-- Python `line.strip()`: drop leading and trailing whitespace. -/
def pyStrip (s : String) : String :=
  String.mk (((s.data.dropWhile isPySpace).reverse.dropWhile isPySpace).reverse)

/-- Python `line.rstrip('/')`: drop every trailing `/`. -/
def rstripSlash (s : String) : String :=
  String.mk ((s.data.reverse.dropWhile (fun c => c == '/')).reverse)

/-- Boolean prefix test on character lists (Python `startswith`). -/
def listPre : List Char → List Char → Bool
  | [], _ => true
  | _ :: _, [] => false
  | a :: as, b :: bs => a == b && listPre as bs

/-- Boolean substring test on character lists (Python `in`). -/
def listSub (p : List Char) : List Char → Bool
  | [] => p.isEmpty
  | c :: rest => listPre p (c :: rest) || listSub p rest

/-- Python `s.startswith(p)`. -/
def strStarts (s p : String) : Bool := listPre p.data s.data

/-- Python `p in s` (substring containment). -/
def strHas (s p : String) : Bool := listSub p.data s.data

/-- Split a character list on `/`, keeping empty segments (Python `str.split('/')`). -/
def splitSeg (acc : List Char) : List Char → List (List Char)
  | [] => [acc.reverse]
  | c :: rest =>
    if c == '/' then acc.reverse :: splitSeg [] rest else splitSeg (c :: acc) rest

/-- POSIX `pathlib.Path(s).parts`: a root part `/` (or `//` for a double-slash
root) when the string is absolute, followed by the non-empty, non-`.` segments. -/
def pathParts (s : String) : List String :=
  let cs := s.data
  let segs := ((splitSeg [] cs).map (fun l => String.mk l)).filter
    (fun t => !(t == "") && !(t == "."))
  if cs.head? == some '/' then
    (if (cs.drop 1).head? == some '/' && !((cs.drop 2).head? == some '/') then "//" else "/")
      :: segs
  else segs

/-- Per-key statistics record of `analyze_rsync_output`:
`{"files": 0, "dirs": 0, "items": []}`. -/
structure DirStat where
  files : Nat
  dirs : Nat
  items : List String
deriving DecidableEq

/-- The `defaultdict` default value. -/
def emptyStat : DirStat := ⟨0, 0, []⟩

/-- The aggregation state: an insertion-ordered association list from grouping
key to `DirStat`, mirroring the Python `defaultdict`. -/
abbrev DirStats := List (String × DirStat)

/-- `dir_stats[k]` mutation: apply `f` to the entry at `k`, creating it from
the default when absent (appended in insertion order, as a Python dict does). -/
def updateStat : DirStats → String → (DirStat → DirStat) → DirStats
  | [], k, f => [(k, f emptyStat)]
  | (k2, v) :: rest, k, f =>
    if k2 = k then (k2, f v) :: rest else (k2, v) :: updateStat rest k f

/-- The per-line mutation of a `DirStat`: increment the file or directory
counter per the classification, and append the line as a sample when fewer
than 5 samples are stored. -/
def bump (isDir : Bool) (line : String) (s : DirStat) : DirStat :=
  { files := if isDir then s.files else s.files + 1,
    dirs := if isDir then s.dirs + 1 else s.dirs,
    items := if s.items.length < 5 then s.items ++ [line] else s.items }

/-- The combined skip condition of the parser: empty line or any rsync noise
pattern (`rsync:`, `sent`, `total size`, `rsync error`, `bytes/sec`,
`receiving`, `sending`). -/
def skipLine (line : String) : Bool :=
  line == "" || strStarts line "rsync:" || strStarts line "sent" ||
  strStarts line "total size" || strStarts line "rsync error" ||
  strHas line "bytes/sec" || strStarts line "receiving" ||
  strStarts line "sending"

/-- Python `line.endswith('/')`. -/
def lineEndsSlash (line : String) : Bool := line.data.getLast? == some '/'

/-- Grouping-key derivation from `Path(...).parts`: first two parts joined by
`/` when there are at least two, the sole part when there is one, none when
there are none. -/
def keyOfParts : List String → Option String
  | [] => none
  | [p] => some p
  | p0 :: p1 :: _ => some (p0 ++ "/" ++ p1)

/-- One iteration of the parsing loop of `analyze_rsync_output` on a raw line. -/
def processLine (stats : DirStats) (raw : String) : DirStats :=
  let line := pyStrip raw
  if skipLine line then stats
  else
    let isDir := lineEndsSlash line
    match keyOfParts (pathParts (rstripSlash line)) with
    | none => stats
    | some k => updateStat stats k (bump isDir line)

/-- `analyze_rsync_output`: fold the per-line step over the captured output. -/
def analyze_rsync_output (lines : List String) : DirStats :=
  lines.foldl processLine []

/-- The grouping key an accepted raw line is routed to (`none` when the line
is skipped as noise/empty or yields no path segments). -/
def acceptedKey (raw : String) : Option String :=
  let line := pyStrip raw
  if skipLine line then none
  else keyOfParts (pathParts (rstripSlash line))

/-- Raw lines routed to key `k`, as their post-strip text, in input order. -/
def routedTo (k : String) (lines : List String) : List String :=
  lines.filterMap (fun raw =>
    match acceptedKey raw with
    | some k2 => if k2 = k then some (pyStrip raw) else none
    | none => none)

/-- Accepted lines classified as files (no trailing separator). -/
def isFileLine (raw : String) : Bool :=
  (acceptedKey raw).isSome && !(lineEndsSlash (pyStrip raw))

/-- Accepted lines classified as directories (trailing separator). -/
def isDirLine (raw : String) : Bool :=
  (acceptedKey raw).isSome && lineEndsSlash (pyStrip raw)

/-- Sum of per-key file counts, as in the report summary. -/
def sumFiles (m : DirStats) : Nat := (m.map (fun p => p.2.files)).sum

/-- Sum of per-key directory counts, as in the report summary. -/
def sumDirs (m : DirStats) : Nat := (m.map (fun p => p.2.dirs)).sum

/-- Keys of the aggregation state in insertion order. -/
def keyList (m : DirStats) : List String := m.map Prod.fst

/-- `dir_stats[k]` read access: the stat stored at `k` (first match), or the
`defaultdict` default (keys looked up by the reporter always exist). -/
def lookupStat : DirStats → String → DirStat
  | [], _ => emptyStat
  | (k2, v) :: rest, k => if k2 = k then v else lookupStat rest k

/-- Python `sorted(dir_stats.keys())`: lexicographic sort of the keys. -/
def sortedKeys (m : DirStats) : List String :=
  (keyList m).mergeSort (fun a b => a ≤ b)

/-- The `"=" * 80` rule used by `format_report`. -/
def eqRule : String := String.mk (List.replicate 80 '=')

/-- One per-directory section of the report. -/
def sectionOf (k : String) (st : DirStat) : List String :=
  ["Directory: " ++ k ++ "/",
   "  - Files: " ++ toString st.files,
   "  - Subdirectories: " ++ toString st.dirs,
   "  - Total items: " ++ toString (st.files + st.dirs)] ++
  (if st.items.isEmpty then []
   else "  - Sample items:" :: (st.items.take 3).map (fun it => "      " ++ it)) ++
  [""]

/-- `format_report`: header, one section per key in sorted order, summary. -/
def format_report (m : DirStats) (source destination : String) : String :=
  let header := [eqRule, "FILE LOCATION COMPARISON REPORT", eqRule,
    "Source:      " ++ source, "Destination: " ++ destination, "",
    "UNIQUE CONTENT IN SOURCE (Not in destination)", eqRule, ""]
  let body := ((sortedKeys m).map (fun k => sectionOf k (lookupStat m k))).flatten
  let footer := [eqRule, "SUMMARY", eqRule,
    "Total unique parent directories: " ++ toString m.length,
    "Total unique files: " ++ toString (sumFiles m),
    "Total unique subdirectories: " ++ toString (sumDirs m),
    "Grand total: " ++ toString (sumFiles m + sumDirs m) ++ " items", ""]
  String.intercalate "\n" (header ++ body ++ footer)

/-- Outcome of one step of `main`: normal completion, `KeyboardInterrupt`, or
an ordinary `Exception`. -/
inductive PyExc where
  | noExc
  | keyboardInterrupt
  | otherError
deriving DecidableEq

/-- Observable outcome of a run of `main`: the process exit code and whether
the temporary rsync-output file is still on disk at exit. -/
structure MainOutcome where
  exitCode : Nat
  tempRemains : Bool
deriving DecidableEq

/-- Control flow of `main`'s try block around the temporary file created by
`run_rsync_comparison`.  Each argument says what the corresponding step raises.
An ordinary exception inside `run_rsync_comparison` is caught there: the temp
file is unlinked and the process exits 1.  A `KeyboardInterrupt` anywhere
propagates to `main`'s handler, which exits 130 without unlinking; an ordinary
exception in a later step reaches `main`'s generic handler, which exits 1
without unlinking.  Only the all-clear path reaches the final unlink. -/
def main_pipeline (eRsync eAnalyze eReport eSave eDisplay : PyExc) : MainOutcome :=
  match eRsync with
  | .otherError => ⟨1, false⟩
  | .keyboardInterrupt => ⟨130, true⟩
  | .noExc =>
    match eAnalyze with
    | .otherError => ⟨1, true⟩
    | .keyboardInterrupt => ⟨130, true⟩
    | .noExc =>
      match eReport with
      | .otherError => ⟨1, true⟩
      | .keyboardInterrupt => ⟨130, true⟩
      | .noExc =>
        match eSave with
        | .otherError => ⟨1, true⟩
        | .keyboardInterrupt => ⟨130, true⟩
        | .noExc =>
          match eDisplay with
          | .otherError => ⟨1, true⟩
          | .keyboardInterrupt => ⟨130, true⟩
          | .noExc => ⟨0, false⟩

/-- The five-line end-to-end example input from the specification. -/
def c1Input : List String :=
  ["docs/", "docs/readme.txt", "docs/notes/todo.txt", "media/photo.png",
   "sent 100 bytes  received 20 bytes  50.00 bytes/sec"]

/-- Follows the claim's words (C3): a line counted as a file line when it is
non-empty after trimming, matches no noise pattern, and does not end with the
separator — with no requirement that any path segment be extractable. -/
def claimC3FileLine (raw : String) : Bool :=
  !(skipLine (pyStrip raw)) && !(lineEndsSlash (pyStrip raw))

/-- A concrete two-key aggregation state, in one insertion order. -/
def c7MapA : DirStats := [("b", ⟨1, 0, ["b/x"]⟩), ("a", ⟨2, 3, ["a/y"]⟩)]

/-- The same aggregation state as `c7MapA`, in the other insertion order. -/
def c7MapB : DirStats := [("a", ⟨2, 3, ["a/y"]⟩), ("b", ⟨1, 0, ["b/x"]⟩)]


/-! Helper lemmas about the aggregation step. -/

/-- The per-line step, characterised through `acceptedKey`. -/
theorem processLine_eq (m : DirStats) (raw : String) :
    processLine m raw =
      match acceptedKey raw with
      | none => m
      | some k => updateStat m k (bump (lineEndsSlash (pyStrip raw)) (pyStrip raw)) := by
  by_cases h : skipLine (pyStrip raw) = true
  · simp [processLine, acceptedKey, h]
  · simp [processLine, acceptedKey, h]

/-- Updating key `k` rewrites the lookup at `k` through `f`. -/
theorem lookupStat_updateStat_self (m : DirStats) (k : String) (f : DirStat → DirStat) :
    lookupStat (updateStat m k f) k = f (lookupStat m k) := by
  induction m with
  | nil => simp [updateStat, lookupStat]
  | cons p rest ih =>
    obtain ⟨k2, v⟩ := p
    by_cases h : k2 = k
    · subst h
      simp [updateStat, lookupStat]
    · simp [updateStat, lookupStat, h, ih]

/-- Updating key `k` leaves the lookup at any other key unchanged. -/
theorem lookupStat_updateStat_ne (m : DirStats) (k : String) (f : DirStat → DirStat)
    (k2 : String) (h : k2 ≠ k) :
    lookupStat (updateStat m k f) k2 = lookupStat m k2 := by
  induction m with
  | nil => simp [updateStat, lookupStat, Ne.symm h]
  | cons p rest ih =>
    obtain ⟨k3, v⟩ := p
    by_cases h3 : k3 = k
    · subst h3
      simp [updateStat, lookupStat, Ne.symm h]
    · simp [updateStat, lookupStat, h3, ih]

/-- Updating through an `f` that adds `d` to the file counter adds `d` to the
file-count total. -/
theorem sumFiles_updateStat (m : DirStats) (k : String) (f : DirStat → DirStat) (d : Nat)
    (hf : ∀ s, (f s).files = s.files + d) :
    sumFiles (updateStat m k f) = sumFiles m + d := by
  induction m with
  | nil => simp [updateStat, sumFiles, hf, emptyStat]
  | cons p rest ih =>
    obtain ⟨k2, v⟩ := p
    by_cases h : k2 = k
    · subst h
      simp only [updateStat, if_true, sumFiles, List.map_cons, List.sum_cons, hf]
      omega
    · simp only [updateStat, h, if_false, sumFiles, List.map_cons, List.sum_cons] at *
      omega

/-- Updating through an `f` that adds `d` to the directory counter adds `d` to
the directory-count total. -/
theorem sumDirs_updateStat (m : DirStats) (k : String) (f : DirStat → DirStat) (d : Nat)
    (hf : ∀ s, (f s).dirs = s.dirs + d) :
    sumDirs (updateStat m k f) = sumDirs m + d := by
  induction m with
  | nil => simp [updateStat, sumDirs, hf, emptyStat]
  | cons p rest ih =>
    obtain ⟨k2, v⟩ := p
    by_cases h : k2 = k
    · subst h
      simp only [updateStat, if_true, sumDirs, List.map_cons, List.sum_cons, hf]
      omega
    · simp only [updateStat, h, if_false, sumDirs, List.map_cons, List.sum_cons] at *
      omega

/-- One step changes the file-count total by 1 exactly for file lines. -/
theorem sumFiles_processLine (m : DirStats) (raw : String) :
    sumFiles (processLine m raw) = sumFiles m + (if isFileLine raw then 1 else 0) := by
  rw [processLine_eq]
  unfold isFileLine
  cases hk : acceptedKey raw
  · simp [hk]
  · cases hd : lineEndsSlash (pyStrip raw)
    · simp only [hk, hd]
      rw [sumFiles_updateStat _ _ _ 1 (fun s => by simp [bump])]
      simp
    · simp only [hk, hd]
      rw [sumFiles_updateStat _ _ _ 0 (fun s => by simp [bump])]
      simp

/-- One step changes the directory-count total by 1 exactly for directory lines. -/
theorem sumDirs_processLine (m : DirStats) (raw : String) :
    sumDirs (processLine m raw) = sumDirs m + (if isDirLine raw then 1 else 0) := by
  rw [processLine_eq]
  unfold isDirLine
  cases hk : acceptedKey raw
  · simp [hk]
  · cases hd : lineEndsSlash (pyStrip raw)
    · simp only [hk, hd]
      rw [sumDirs_updateStat _ _ _ 0 (fun s => by simp [bump])]
      simp
    · simp only [hk, hd]
      rw [sumDirs_updateStat _ _ _ 1 (fun s => by simp [bump])]
      simp

/-- Folding the step adds the number of file lines to the file-count total. -/
theorem sumFiles_foldl (lines : List String) (m : DirStats) :
    sumFiles (lines.foldl processLine m) = sumFiles m + lines.countP isFileLine := by
  induction lines generalizing m with
  | nil => simp
  | cons raw rest ih =>
    rw [List.foldl_cons, ih, sumFiles_processLine, List.countP_cons]
    by_cases hf : isFileLine raw = true
    · simp [hf]
      omega
    · simp [hf]

/-- Folding the step adds the number of directory lines to the directory total. -/
theorem sumDirs_foldl (lines : List String) (m : DirStats) :
    sumDirs (lines.foldl processLine m) = sumDirs m + lines.countP isDirLine := by
  induction lines generalizing m with
  | nil => simp
  | cons raw rest ih =>
    rw [List.foldl_cons, ih, sumDirs_processLine, List.countP_cons]
    by_cases hf : isDirLine raw = true
    · simp [hf]
      omega
    · simp [hf]

/-- Effect of one step on the stat stored at an arbitrary key. -/
theorem lookupStat_processLine (m : DirStats) (raw : String) (k : String) :
    lookupStat (processLine m raw) k =
      match acceptedKey raw with
      | none => lookupStat m k
      | some k2 =>
        if k2 = k then bump (lineEndsSlash (pyStrip raw)) (pyStrip raw) (lookupStat m k)
        else lookupStat m k := by
  rw [processLine_eq]
  cases hk : acceptedKey raw
  · simp
  · rename_i k2
    by_cases h : k2 = k
    · subst h
      simp [lookupStat_updateStat_self]
    · simp [h, lookupStat_updateStat_ne _ _ _ _ (fun hh => h hh.symm)]

/-- Folding the step appends to each key's sample list the lines routed to that
key, up to the capacity of 5. -/
theorem items_foldl (lines : List String) (k : String) (m : DirStats) :
    (lookupStat (lines.foldl processLine m) k).items =
      (lookupStat m k).items ++
        (routedTo k lines).take (5 - (lookupStat m k).items.length) := by
  induction lines generalizing m with
  | nil => simp [routedTo]
  | cons raw rest ih =>
    rw [List.foldl_cons, ih]
    have hroute : routedTo k (raw :: rest) =
        (match acceptedKey raw with
         | some k2 => if k2 = k then some (pyStrip raw) else none
         | none => none).toList ++ routedTo k rest := by
      simp [routedTo, List.filterMap_cons]
      cases hk : acceptedKey raw
      · simp
      · rename_i k2
        by_cases h : k2 = k <;> simp [h]
    rw [lookupStat_processLine]
    cases hk : acceptedKey raw
    · simp only [hroute, hk, Option.toList_none, List.nil_append]
    · rename_i k2
      by_cases h : k2 = k
      · subst h
        simp only [hroute, hk, Option.toList_some, if_true]
        by_cases hlen : (lookupStat m k2).items.length < 5
        · have hb : (bump (lineEndsSlash (pyStrip raw)) (pyStrip raw)
              (lookupStat m k2)).items = (lookupStat m k2).items ++ [pyStrip raw] := by
            simp [bump, hlen]
          rw [hb]
          obtain ⟨d, hd⟩ : ∃ d, 5 - (lookupStat m k2).items.length = d + 1 :=
            ⟨4 - (lookupStat m k2).items.length, by omega⟩
          have hd2 : 5 - ((lookupStat m k2).items ++ [pyStrip raw]).length = d := by
            simp only [List.length_append, List.length_cons, List.length_nil]
            omega
          rw [hd2, hd, List.singleton_append, List.take_succ_cons, List.append_assoc,
            List.cons_append, List.nil_append]
        · have hb : (bump (lineEndsSlash (pyStrip raw)) (pyStrip raw)
              (lookupStat m k2)).items = (lookupStat m k2).items := by
            simp [bump, hlen]
          rw [hb]
          have h5 : 5 - (lookupStat m k2).items.length = 0 := by omega
          simp [h5]
      · simp only [hroute, hk, h, if_false, Option.toList_none, List.nil_append]

/-- Every part produced by `pathParts` is a non-empty string. -/
theorem mem_pathParts_ne_empty (s : String) (p : String) (hp : p ∈ pathParts s) :
    p ≠ "" := by
  have hseg : ∀ q : String,
      q ∈ ((splitSeg [] s.data).map (fun l => String.mk l)).filter
        (fun t => !(t == "") && !(t == ".")) → q ≠ "" := by
    intro q hq
    have h2 := (List.mem_filter.mp hq).2
    simp only [Bool.and_eq_true, Bool.not_eq_true', beq_eq_false_iff_ne, ne_eq] at h2
    exact h2.1
  simp only [pathParts] at hp
  split at hp
  · rcases List.mem_cons.mp hp with h1 | h1
    · split at h1 <;> (subst h1; decide)
    · exact hseg p h1
  · exact hseg p hp

/-- Every key produced by the grouping-key derivation is a non-empty string. -/
theorem acceptedKey_ne_empty (raw : String) (k : String)
    (h : acceptedKey raw = some k) : k ≠ "" := by
  simp only [acceptedKey] at h
  split at h
  · exact absurd h (by simp)
  · cases hp : pathParts (rstripSlash (pyStrip raw)) with
    | nil => rw [hp] at h; exact absurd h (by simp [keyOfParts])
    | cons p0 rest =>
      cases rest with
      | nil =>
        rw [hp] at h
        simp only [keyOfParts, Option.some.injEq] at h
        subst h
        exact mem_pathParts_ne_empty _ _ (hp ▸ List.mem_cons_self p0 [])
      | cons p1 rest2 =>
        rw [hp] at h
        simp only [keyOfParts, Option.some.injEq] at h
        subst h
        intro he
        have hlen := congrArg String.length he
        have h1 : (p0 ++ "/" ++ p1).length = p0.length + "/".length + p1.length := by
          simp [String.length_append]
        have hs : ("/" : String).length = 1 := rfl
        have h0 : ("" : String).length = 0 := rfl
        omega

/-- Keys present after an update were present before, or equal the updated key. -/
theorem mem_keyList_updateStat (m : DirStats) (k : String) (f : DirStat → DirStat)
    (k2 : String) (h : k2 ∈ keyList (updateStat m k f)) : k2 ∈ keyList m ∨ k2 = k := by
  induction m with
  | nil => simp [updateStat, keyList] at h; simp [h]
  | cons p rest ih =>
    obtain ⟨k3, v⟩ := p
    by_cases h3 : k3 = k
    · subst h3
      simp only [updateStat, if_true, keyList, List.map_cons, List.mem_cons] at h ⊢
      tauto
    · simp only [updateStat, h3, if_false, keyList, List.map_cons, List.mem_cons] at h ⊢
      rcases h with h | h
      · tauto
      · rcases ih h with h2 | h2 <;> tauto

/-- With duplicate-free keys, lookups are invariant under permutation of the
association list. -/
theorem lookupStat_eq_of_perm {m1 m2 : DirStats} (hp : m1.Perm m2) :
    (keyList m1).Nodup → ∀ k, lookupStat m1 k = lookupStat m2 k := by
  induction hp with
  | nil => intro _ k; rfl
  | cons x hp2 ih =>
    intro hn k
    obtain ⟨a, va⟩ := x
    simp only [keyList, List.map_cons, List.nodup_cons] at hn
    by_cases h : a = k
    · simp [lookupStat, h]
    · simp only [lookupStat, h, if_false]
      exact ih hn.2 k
  | swap x y l =>
    intro hn k
    obtain ⟨a, va⟩ := x
    obtain ⟨b, vb⟩ := y
    simp only [keyList, List.map_cons, List.nodup_cons, List.mem_cons] at hn
    by_cases ha : a = k <;> by_cases hb : b = k
    · exact absurd (ha.trans hb.symm).symm (fun hh => hn.1 (Or.inl hh))
    · simp [lookupStat, ha, hb]
    · simp [lookupStat, ha, hb]
    · simp [lookupStat, ha, hb]
  | trans hp1 hp2 ih1 ih2 =>
    intro hn k
    have hn2 := ((hp1.map Prod.fst).nodup_iff).mp hn
    exact (ih1 hn k).trans (ih2 hn2 k)

/-- Sorted key sequences are invariant under permutation of the association
list. -/
theorem sortedKeys_eq_of_perm {m1 m2 : DirStats} (hp : m1.Perm m2) :
    sortedKeys m1 = sortedKeys m2 :=
  List.eq_of_perm_of_sorted (r := (· ≤ ·))
    (((List.mergeSort_perm _ _).trans (hp.map Prod.fst)).trans
      (List.mergeSort_perm _ _).symm)
    (List.sorted_mergeSort' _) (List.sorted_mergeSort' _)

/-- Per-key totals are invariant under permutation of the association list. -/
theorem sums_eq_of_perm {m1 m2 : DirStats} (hp : m1.Perm m2) :
    sumFiles m1 = sumFiles m2 ∧ sumDirs m1 = sumDirs m2 := by
  unfold sumFiles sumDirs
  exact ⟨(hp.map (fun p => p.2.files)).sum_eq, (hp.map (fun p => p.2.dirs)).sum_eq⟩

/-! Claim theorems. -/

/-- Claim C1, counterexample: on the five-line example input the claimed
aggregation is false — the key `docs` does not have file count 2, and the
result does not have exactly two keys. -/
theorem C1_counterexample :
    ¬ ((lookupStat (analyze_rsync_output c1Input) "docs").files = 2 ∧
       (analyze_rsync_output c1Input).length = 2) := by decide

/-- Claim C1, amended: on the five-line example input the aggregator produces
four keys — `docs` (0 files, 1 dir, sample `docs/`), `docs/readme.txt` (1
file), `docs/notes` (1 file, sample `docs/notes/todo.txt`), and
`media/photo.png` (1 file) — with grand totals of 3 files, 1 directory, 4
items, 4 keys. -/
theorem C1_actual_aggregation :
    analyze_rsync_output c1Input =
      [("docs", ⟨0, 1, ["docs/"]⟩),
       ("docs/readme.txt", ⟨1, 0, ["docs/readme.txt"]⟩),
       ("docs/notes", ⟨1, 0, ["docs/notes/todo.txt"]⟩),
       ("media/photo.png", ⟨1, 0, ["media/photo.png"]⟩)] ∧
    sumFiles (analyze_rsync_output c1Input) = 3 ∧
    sumDirs (analyze_rsync_output c1Input) = 1 ∧
    sumFiles (analyze_rsync_output c1Input) + sumDirs (analyze_rsync_output c1Input) = 4 ∧
    (analyze_rsync_output c1Input).length = 4 :=
  ⟨by decide, by decide, by decide, by decide, by decide⟩

/-- Claim C2: grouping-key derivation — `a/b/c` is bucketed under `a/b`, `a`
under `a`, and the directory line `a/b/` under `a/b` with the directory
counter incremented; in general two or more segments use the first two joined
by the separator, one segment is used as-is, and zero segments yield no key. -/
theorem C2_grouping_key :
    analyze_rsync_output ["a/b/c"] = [("a/b", ⟨1, 0, ["a/b/c"]⟩)] ∧
    analyze_rsync_output ["a"] = [("a", ⟨1, 0, ["a"]⟩)] ∧
    analyze_rsync_output ["a/b/"] = [("a/b", ⟨0, 1, ["a/b/"]⟩)] ∧
    (∀ p0 p1 rest, keyOfParts (p0 :: p1 :: rest) = some (p0 ++ "/" ++ p1)) ∧
    (∀ p, keyOfParts [p] = some p) ∧
    keyOfParts ([] : List String) = none :=
  ⟨by decide, by decide, by decide, fun _ _ _ => rfl, fun _ => rfl, rfl⟩

/-- Claim C3, counterexample: for the input consisting of the single line `.`
(non-empty, non-noise, file-classified, but yielding zero path segments) the
sum of per-key file counts is 0 while the claim's count of file-classified
lines is 1. -/
theorem C3_counterexample :
    sumFiles (analyze_rsync_output ["."]) ≠ List.countP claimC3FileLine ["."] := by
  decide

/-- Claim C3, amended: for every input, the sum of per-key file counts equals
the number of lines that are non-empty after trimming, match no noise
pattern, are classified as files, and yield at least one path segment; and
likewise for directory counts and directory-classified lines. -/
theorem C3_totals (lines : List String) :
    sumFiles (analyze_rsync_output lines) = lines.countP isFileLine ∧
    sumDirs (analyze_rsync_output lines) = lines.countP isDirLine := by
  unfold analyze_rsync_output
  constructor
  · rw [sumFiles_foldl]
    simp [sumFiles]
  · rw [sumDirs_foldl]
    simp [sumDirs]

/-- Claim C4 (code bug): a `KeyboardInterrupt` during or after the rsync
invocation makes `main` exit with code 130 but leaves the temporary output
file on disk (`tempRemains = true`), contradicting the claimed guaranteed
removal on every exit path; only the fully successful path and an ordinary
exception inside `run_rsync_comparison` remove it. -/
theorem C4_interrupt_behavior :
    main_pipeline .keyboardInterrupt .noExc .noExc .noExc .noExc =
      { exitCode := 130, tempRemains := true } ∧
    main_pipeline .noExc .keyboardInterrupt .noExc .noExc .noExc =
      { exitCode := 130, tempRemains := true } ∧
    main_pipeline .otherError .noExc .noExc .noExc .noExc =
      { exitCode := 1, tempRemains := false } ∧
    main_pipeline .noExc .noExc .noExc .noExc .noExc =
      { exitCode := 0, tempRemains := false } :=
  ⟨rfl, rfl, rfl, rfl⟩

/-- Claim C5: an accepted line increments exactly one counter (directory
counter for directory lines, file counter for file lines, never both) of
exactly one key's `DirectoryStat`, and leaves every other key's stat
unchanged. -/
theorem C5_line_single_count (m : DirStats) (raw : String) (k : String)
    (h : acceptedKey raw = some k) :
    (if lineEndsSlash (pyStrip raw) = true then
       (lookupStat (processLine m raw) k).dirs = (lookupStat m k).dirs + 1 ∧
       (lookupStat (processLine m raw) k).files = (lookupStat m k).files
     else
       (lookupStat (processLine m raw) k).files = (lookupStat m k).files + 1 ∧
       (lookupStat (processLine m raw) k).dirs = (lookupStat m k).dirs) ∧
    ∀ k2, k2 ≠ k → lookupStat (processLine m raw) k2 = lookupStat m k2 := by
  constructor
  · have hl := lookupStat_processLine m raw k
    rw [h] at hl
    simp only [if_pos rfl] at hl
    cases hd : lineEndsSlash (pyStrip raw)
    · simp only [hd, Bool.false_eq_true, if_false]
      rw [hl]
      simp [bump, hd]
    · simp only [hd, if_true]
      rw [hl]
      simp [bump, hd]
  · intro k2 hk2
    have hl := lookupStat_processLine m raw k2
    rw [h] at hl
    simp only [Ne.symm hk2, if_false] at hl
    exact hl

/-- Witness for C5 at the concrete state `[]` and line `a/b/c`. -/
theorem C5_witness :
    (if lineEndsSlash (pyStrip "a/b/c") = true then
       (lookupStat (processLine [] "a/b/c") "a/b").dirs = (lookupStat [] "a/b").dirs + 1 ∧
       (lookupStat (processLine [] "a/b/c") "a/b").files = (lookupStat [] "a/b").files
     else
       (lookupStat (processLine [] "a/b/c") "a/b").files = (lookupStat [] "a/b").files + 1 ∧
       (lookupStat (processLine [] "a/b/c") "a/b").dirs = (lookupStat [] "a/b").dirs) ∧
    ∀ k2, k2 ≠ "a/b" → lookupStat (processLine [] "a/b/c") k2 = lookupStat [] k2 :=
  C5_line_single_count [] "a/b/c" "a/b" (by decide)

/-- Claim C6: for every input and key, the key's sample list is exactly the
first `min(5, n)` accepted lines routed to that key (post-trim text), in
input order, and never exceeds length 5. -/
theorem C6_sample_lists (lines : List String) (k : String) :
    (lookupStat (analyze_rsync_output lines) k).items = (routedTo k lines).take 5 ∧
    (lookupStat (analyze_rsync_output lines) k).items.length ≤ 5 := by
  unfold analyze_rsync_output
  have h := items_foldl lines k []
  have h0 : (lookupStat ([] : DirStats) k).items = [] := rfl
  rw [h0] at h
  simp only [List.length_nil, Nat.sub_zero, List.nil_append] at h
  refine ⟨h, ?_⟩
  rw [h, List.length_take]
  omega

/-- Claim C7: report rendering is a pure, deterministic function of the
aggregation mapping and labels — permuting the association list (with
duplicate-free keys) leaves the report text byte-identical — and the sections
are iterated in ascending lexicographic key order. -/
theorem C7_report_deterministic (m1 m2 : DirStats) (s d : String)
    (hn : (keyList m1).Nodup) (hp : m1.Perm m2) :
    format_report m1 s d = format_report m2 s d ∧
    List.Sorted (· ≤ ·) (sortedKeys m1) := by
  constructor
  · have hk := sortedKeys_eq_of_perm hp
    have hl := lookupStat_eq_of_perm hp hn
    have hfun : (fun k => sectionOf k (lookupStat m1 k)) =
        (fun k => sectionOf k (lookupStat m2 k)) := funext fun k => by rw [hl k]
    have hlen : m1.length = m2.length := hp.length_eq
    have hs := sums_eq_of_perm hp
    simp only [format_report]
    rw [hk, hfun, hlen, hs.1, hs.2]
  · unfold sortedKeys
    exact List.sorted_mergeSort' _

/-- Witness for C7 on a two-key mapping in both insertion orders. -/
theorem C7_witness :
    format_report c7MapA "s" "d" = format_report c7MapB "s" "d" ∧
    List.Sorted (· ≤ ·) (sortedKeys c7MapA) :=
  C7_report_deterministic c7MapA c7MapB "s" "d" (by decide) (by decide)

/-- Claim C8: noise filtering — the transfer-summary line and the `rsync:`
line are discarded while `a/b/file.txt` is counted as a file under `a/b`;
in general every line starting with `rsync:`, `rsync error`, `sent`,
`total size`, `receiving` or `sending`, or containing `bytes/sec`, is
skipped. -/
theorem C8_noise_filtering :
    analyze_rsync_output ["sent 1234 bytes  500.00 bytes/sec"] = [] ∧
    analyze_rsync_output ["rsync: some error"] = [] ∧
    analyze_rsync_output ["a/b/file.txt"] = [("a/b", ⟨1, 0, ["a/b/file.txt"]⟩)] ∧
    (∀ l, strStarts l "rsync:" = true → skipLine l = true) ∧
    (∀ l, strStarts l "rsync error" = true → skipLine l = true) ∧
    (∀ l, strStarts l "sent" = true → skipLine l = true) ∧
    (∀ l, strStarts l "total size" = true → skipLine l = true) ∧
    (∀ l, strStarts l "receiving" = true → skipLine l = true) ∧
    (∀ l, strStarts l "sending" = true → skipLine l = true) ∧
    (∀ l, strHas l "bytes/sec" = true → skipLine l = true) := by
  refine ⟨by decide, by decide, by decide, ?_, ?_, ?_, ?_, ?_, ?_, ?_⟩ <;>
    exact fun l h => by simp [skipLine, h]

/-- Witness for C8: a line starting with `sent` is skipped. -/
theorem C8_witness : skipLine "sent 0 bytes" = true :=
  C8_noise_filtering.2.2.2.2.2.1 "sent 0 bytes" (by decide)

/-- Claim C9: the aggregation never contains the empty string as a key, and a
line that is only a separator is discarded without creating any entry. -/
theorem C9_no_empty_key :
    (∀ (lines : List String) (k : String),
        k ∈ keyList (analyze_rsync_output lines) → k ≠ "") ∧
    analyze_rsync_output ["/"] = [] := by
  constructor
  · intro lines
    have main2 : ∀ (ls : List String) (m : DirStats),
        (∀ k2 ∈ keyList m, k2 ≠ "") →
        ∀ k ∈ keyList (ls.foldl processLine m), k ≠ "" := by
      intro ls
      induction ls with
      | nil => intro m hm; exact hm
      | cons raw rest ih =>
        intro m hm
        rw [List.foldl_cons]
        apply ih
        intro k2 hk2
        rw [processLine_eq] at hk2
        cases hk : acceptedKey raw
        · rw [hk] at hk2
          exact hm k2 hk2
        · rename_i kk
          rw [hk] at hk2
          rcases mem_keyList_updateStat _ _ _ _ hk2 with hmem | heq
          · exact hm k2 hmem
          · subst heq
            exact acceptedKey_ne_empty raw _ hk
    intro k hk
    exact main2 lines [] (by simp [keyList]) k hk
  · decide

/-- Witness for C9 at the input `a/b`. -/
theorem C9_witness : "a/b" ≠ "" :=
  C9_no_empty_key.1 ["a/b"] "a/b" (by decide)

/-- Claim C10: for absolute paths the POSIX root `/` is itself the first path
segment, so both `/a/b` and `/a` are grouped under the key `//a`. -/
theorem C10_absolute_root_segment :
    analyze_rsync_output ["/a/b"] = [("//a", ⟨1, 0, ["/a/b"]⟩)] ∧
    analyze_rsync_output ["/a"] = [("//a", ⟨1, 0, ["/a"]⟩)] ∧
    pathParts "/a/b" = ["/", "a", "b"] ∧
    pathParts "/a" = ["/", "a"] :=
  ⟨by decide, by decide, by decide, by decide⟩
